import Mathlib

/-!
Shallow embedding of the obiggrills-backend request-handling and
persistence layer (Express + Mongoose HTTP API, `src/unnamed/part_001`).

Request-body scalars are modelled by `JsValue` (JSON leaves as the
handlers see them after `express.json` / `multer` body parsing); nested
objects that the handlers access structurally (`customer`, `items`,
`deliveryLocation`) are modelled by dedicated structures.  JavaScript
numbers are modelled by `JsNum`: `nan`, signed infinity, or a finite
rational — the handlers only parse and copy numbers, so no double
rounding is involved.  The document store (MongoDB via Mongoose) is
modelled by `DB`, lists of documents in insertion order; `findOne`
returns the first match, `find().sort({createdAt:-1})` is a stable
sort by descending creation time.
-/

namespace Obig

/-- A JavaScript number: NaN, positive or negative Infinity, or a finite value. -/
inductive JsNum where
  | nan : JsNum
  | inf : Bool → JsNum
  | fin : ℚ → JsNum
deriving DecidableEq

/-- A scalar JSON value as seen by a request handler.  `undefined` stands
for an absent field. -/
inductive JsValue where
  | undefined : JsValue
  | null : JsValue
  | bool : Bool → JsValue
  | num : JsNum → JsValue
  | str : String → JsValue
deriving DecidableEq

/-- JavaScript truthiness of a number: `NaN` and `0` are falsy. -/
def numTruthy : JsNum → Bool
  | .nan => false
  | .inf _ => true
  | .fin q => q != 0

/-- JavaScript truthiness of a scalar value. -/
def truthy : JsValue → Bool
  | .undefined => false
  | .null => false
  | .bool b => b
  | .num n => numTruthy n
  | .str s => s != ""

/-- JavaScript `a || b` on scalar values. -/
def jsOr (a b : JsValue) : JsValue := if truthy a then a else b

/-- JavaScript `a || b` on numbers (as in `parseFloat(x) || y`). -/
def numOr (a b : JsNum) : JsNum := if numTruthy a then a else b

/-- Drop leading whitespace (JS `parseFloat` skips it). -/
def stripLeadingWs : List Char → List Char
  | [] => []
  | c :: cs => if c.isWhitespace then stripLeadingWs cs else c :: cs

/-- JavaScript `String.prototype.trim`: drop leading and trailing
whitespace.  (Implemented over the character list so that it reduces in
the kernel; core `String.trim` is byte-position based.) -/
def jsTrim (s : String) : String :=
  ⟨stripLeadingWs ((stripLeadingWs s.data.reverse).reverse)⟩

/-- JavaScript `String.prototype.toLowerCase` (ASCII, which is all the
handlers rely on). -/
def jsToLower (s : String) : String :=
  ⟨s.data.map Char.toLower⟩

/-- Split a character list at every separator recognized by `p`,
keeping empty pieces, exactly like JavaScript `String.prototype.split`
with a single-character separator. -/
def splitChars (p : Char → Bool) : List Char → List (List Char)
  | [] => [[]]
  | c :: rest =>
    let r := splitChars p rest
    if p c then [] :: r
    else
      match r with
      | [] => [[c]]
      | piece :: more => (c :: piece) :: more

/-- JavaScript `s.split(sep)` for a one-character separator. -/
def jsSplit (s : String) (sep : Char) : List String :=
  (splitChars (fun c => c == sep) s.data).map String.mk

/-- Consume a maximal digit run, returning its value, its length and the
rest of the input. -/
def takeDigits : List Char → ℕ → ℕ → ℕ × ℕ × List Char
  | [], acc, n => (acc, n, [])
  | c :: cs, acc, n =>
    if c.isDigit then takeDigits cs (10 * acc + (c.toNat - 48)) (n + 1)
    else (acc, n, c :: cs)

/-- Consume an optional sign; returns whether the value is negated. -/
def readSign : List Char → Bool × List Char
  | '-' :: cs => (true, cs)
  | '+' :: cs => (false, cs)
  | cs => (false, cs)

/-- Read a trailing exponent part: `e`, an optional sign, digits; as in JS `parseFloat`,
an `e` not followed by digits is ignored. -/
def readExp (cs : List Char) : Int :=
  match cs with
  | 'e' :: rest =>
    let (eneg, rest₁) := readSign rest
    let (ev, ne, _) := takeDigits rest₁ 0 0
    if ne = 0 then 0 else if eneg then -(ev : Int) else (ev : Int)
  | 'E' :: rest =>
    let (eneg, rest₁) := readSign rest
    let (ev, ne, _) := takeDigits rest₁ 0 0
    if ne = 0 then 0 else if eneg then -(ev : Int) else (ev : Int)
  | _ => 0

/-- JavaScript `parseFloat` on a string: leading whitespace, optional
sign, then `Infinity` or a decimal literal with optional fraction and
exponent; trailing garbage is ignored; no valid prefix gives `NaN`.
The value `s * (ip . fp) * 10 ^ e` is assembled as one exact rational. -/
def parseFloatString (s : String) : JsNum :=
  let cs := stripLeadingWs s.data
  let (neg, cs₁) := readSign cs
  if "Infinity".data.isPrefixOf cs₁ then .inf neg
  else
    let (ip, ni, cs₂) := takeDigits cs₁ 0 0
    let (fp, nf, cs₃) :=
      match cs₂ with
      | '.' :: rest => takeDigits rest 0 0
      | _ => (0, 0, cs₂)
    if ni = 0 ∧ nf = 0 then .nan
    else
      let e := readExp cs₃
      let mant : Int := Int.ofNat (ip * 10 ^ nf + fp)
      let mant := if neg then -mant else mant
      if 0 ≤ e then .fin (mkRat (mant * (10 : Int) ^ e.toNat) (10 ^ nf))
      else .fin (mkRat mant (10 ^ nf * 10 ^ (-e).toNat))

/-- JavaScript `parseFloat` applied to a scalar value (the argument is
stringified first: numbers round-trip, `undefined`/`null`/booleans
stringify to non-numeric text and give `NaN`). -/
def parseFloat : JsValue → JsNum
  | .num n => n
  | .str s => parseFloatString s
  | _ => .nan

example : parseFloatString "0" = .fin 0 := by decide
example : parseFloatString "10" = .fin 10 := by decide
example : parseFloatString "" = .nan := by decide
example : parseFloatString "abc" = .nan := by decide
example : parseFloatString "  -2.5e1" = .fin (-25) := by decide
example : parseFloatString "Infinity" = .inf false := by decide
example : parseFloatString "3.5x" = .fin (mkRat 7 2) := by decide

/-! ## Data model (Mongoose schemas) -/

/-- An entry of the `addresses` array of the User schema. -/
structure AddressDoc where
  name : String
  address : String
  isDefault : Bool
deriving DecidableEq

/-- A stored User document.  `preferences` is inlined into its two
fields; `email` is stored lowercased and trimmed (schema setters). -/
structure UserDoc where
  name : String
  nickname : String
  email : String
  phone : String
  addresses : List AddressDoc
  favoriteItems : List String
  deliveryInstructions : String
deriving DecidableEq

/-- A stored Product document. -/
structure ProductDoc where
  name : String
  description : String
  price : JsNum
  category : String
  imageUrl : String
deriving DecidableEq

/-- An order line item; copied verbatim from the request body. -/
structure OrderItem where
  id : JsValue
  name : JsValue
  price : JsValue
  quantity : JsValue
deriving DecidableEq

/-- The `customer` sub-object of an order. -/
structure Customer where
  name : JsValue
  address : JsValue
  phone : JsValue
  email : JsValue
deriving DecidableEq

/-- The optional `deliveryLocation` sub-object of an order. -/
structure DeliveryLoc where
  id : JsValue
  name : JsValue
  fee : JsValue
deriving DecidableEq

/-- The body of a POST /api/orders request.  `none` for `customer`,
`items` and `deliveryLocation` stands for an absent (or falsy) field. -/
structure OrderReq where
  customer : Option Customer
  items : Option (List OrderItem)
  subtotal : JsValue
  deliveryFee : JsValue
  deliveryLocation : Option DeliveryLoc
  total : JsValue
  paymentMethod : JsValue
  paymentReference : JsValue
  paymentStatus : JsValue
  orderReference : JsValue
  fulfilled : JsValue
deriving DecidableEq

/-- A stored Order document, as assembled by the POST /api/orders
handler before saving. -/
structure OrderDoc where
  customer : Customer
  items : List OrderItem
  subtotal : JsNum
  deliveryFee : JsNum
  deliveryLocation : Option DeliveryLoc
  total : JsNum
  paymentMethod : JsValue
  paymentReference : JsValue
  paymentStatus : JsValue
  orderReference : JsValue
  fulfilled : Bool
deriving DecidableEq

/-- An Order document together with its generated `_id` and its
`createdAt` timestamp (from `{timestamps: true}`). -/
structure StoredOrder where
  oid : String
  createdAt : ℕ
  doc : OrderDoc
deriving DecidableEq

/-- A Product document together with its `_id` and `createdAt`. -/
structure StoredProduct where
  pid : String
  createdAt : ℕ
  doc : ProductDoc
deriving DecidableEq

/-- The three collections of the document store, in insertion order. -/
structure DB where
  users : List UserDoc
  products : List StoredProduct
  orders : List StoredOrder
deriving DecidableEq

/-- `User.findOne({email: key})`: first user whose stored email equals
the key. -/
def findUserByEmail (db : DB) (key : String) : Option UserDoc :=
  db.users.find? (fun u => u.email == key)

/-! ## Order handlers -/

/-- Outcome of POST /api/orders: 400 with a message, or 201 with the
document handed to the store.  (A store-level failure of the subsequent
`save` would yield a 500 but never alters the document.) -/
inductive PostOrderRes where
  | badRequest : String → PostOrderRes
  | created : OrderDoc → PostOrderRes
deriving DecidableEq

/-- The POST /api/orders handler: rejects a missing customer, missing
or empty items, and a falsy `customer.email`; otherwise assembles the
document exactly as the source does (`parseFloat(order.subtotal) ||
parseFloat(order.total)`, `parseFloat(order.deliveryFee) || 0`, the
`|| null` / `|| 'pending'` defaults, and `fulfilled: false`). -/
def postOrder (req : OrderReq) : PostOrderRes :=
  match req.customer, req.items with
  | none, _ => .badRequest "Invalid order data"
  | some _, none => .badRequest "Invalid order data"
  | some c, some its =>
    if its.length = 0 then .badRequest "Invalid order data"
    else if truthy c.email = false then .badRequest "Customer email is required"
    else .created
      { customer := c
        items := its
        subtotal := numOr (parseFloat req.subtotal) (parseFloat req.total)
        deliveryFee := numOr (parseFloat req.deliveryFee) (.fin 0)
        deliveryLocation := req.deliveryLocation
        total := parseFloat req.total
        paymentMethod := req.paymentMethod
        paymentReference := jsOr req.paymentReference .null
        paymentStatus := jsOr req.paymentStatus (.str "pending")
        orderReference := jsOr req.orderReference .null
        fulfilled := false }

/-- POST /api/orders as a store transition: on success the new document
is appended to the orders collection with its generated id and
timestamp. -/
def postOrderState (req : OrderReq) (oid : String) (now : ℕ) (db : DB) :
    DB × PostOrderRes :=
  match postOrder req with
  | .badRequest m => (db, .badRequest m)
  | .created d => ({ db with orders := db.orders ++ [⟨oid, now, d⟩] }, .created d)

/-- `mongoose.Types.ObjectId.isValid`: a 24-character hex string, or any
12-character string (interpreted as raw bytes). -/
def isHexChar (c : Char) : Bool :=
  c.isDigit || ('a' ≤ c && c ≤ 'f') || ('A' ≤ c && c ≤ 'F')

def isValidObjectId (s : String) : Bool :=
  (s.length = 24 && s.data.all isHexChar) || s.length = 12

/-- Outcome of PATCH /api/orders/:id. -/
inductive PatchOrderRes where
  | invalidId : PatchOrderRes
  | orderMissing : PatchOrderRes
  | okOrder : OrderDoc → PatchOrderRes
  | castFailed : PatchOrderRes
deriving DecidableEq

/-- Mongoose's cast of an update value to the Boolean `fulfilled` path:
`undefined` is stripped from the update (no-op), booleans and the usual
boolean-like literals cast, anything else raises a CastError (500).
Values outside those used by the verified claims are mapped to
`castFail`. -/
inductive BoolCast where
  | strip : BoolCast
  | okB : Bool → BoolCast
  | castFail : BoolCast
deriving DecidableEq

def castBool : JsValue → BoolCast
  | .undefined => .strip
  | .bool b => .okB b
  | .str "true" => .okB true
  | .str "false" => .okB false
  | .num (.fin q) => if q = 1 then .okB true else if q = 0 then .okB false else .castFail
  | _ => .castFail

/-- `Order.findByIdAndUpdate(id, {fulfilled}, {new: true})`: find the
first (unique) document with the given id, set its `fulfilled` field,
and return the updated list and updated document. -/
def updateOrderList : List StoredOrder → String → Bool →
    Option (List StoredOrder × OrderDoc)
  | [], _, _ => none
  | so :: rest, id, b =>
    if so.oid == id then
      some (({ so with doc := { so.doc with fulfilled := b } }) :: rest,
            { so.doc with fulfilled := b })
    else
      match updateOrderList rest id b with
      | none => none
      | some (rest', d) => some (so :: rest', d)

/-- The stored order document with a given id, if any. -/
def lookupOrder (db : DB) (id : String) : Option OrderDoc :=
  (db.orders.find? (fun so => so.oid == id)).map (fun so => so.doc)

/-- The PATCH /api/orders/:id handler: 400 on a malformed id, then
`findByIdAndUpdate` with the cast body value; a vanished id gives 404. -/
def patchOrderState (id : String) (fulfilled : JsValue) (db : DB) :
    DB × PatchOrderRes :=
  if isValidObjectId id = false then (db, .invalidId)
  else
    match castBool fulfilled with
    | .strip =>
      match db.orders.find? (fun so => so.oid == id) with
      | none => (db, .orderMissing)
      | some so => (db, .okOrder so.doc)
    | .okB b =>
      match updateOrderList db.orders id b with
      | none => (db, .orderMissing)
      | some (l, d) => ({ db with orders := l }, .okOrder d)
    | .castFail => (db, .castFailed)

/-- Stable insertion of a stored order into a list sorted by strictly
descending `createdAt` (ties keep their original relative order, as the
store's sort is stable). -/
def insertByNewest (x : StoredOrder) : List StoredOrder → List StoredOrder
  | [] => [x]
  | y :: ys => if y.createdAt < x.createdAt then x :: y :: ys else y :: insertByNewest x ys

/-- `sort({createdAt: -1})` on the orders collection. -/
def sortByNewest : List StoredOrder → List StoredOrder
  | [] => []
  | x :: xs => insertByNewest x (sortByNewest xs)

/-- The GET /api/orders handler: `req.query.email` is either absent
(`none`) or a string; a truthy email installs the exact-match filter
`{'customer.email': email}`, otherwise all orders are returned;
the result is sorted newest-first. -/
def getOrders (emailQ : Option String) (db : DB) : List StoredOrder :=
  let filtered :=
    match emailQ with
    | some e =>
      if e == "" then db.orders
      else db.orders.filter (fun so => so.doc.customer.email == .str e)
    | none => db.orders
  sortByNewest filtered

/-! ## User handlers

Request-body fields of the user endpoints are modelled as strings (the
documented JSON bodies); an absent field behaves exactly like the empty
string in the handlers' `!field` guards.  JSON bodies cannot contain
`undefined`, so the PATCH handler's `!== undefined` test is always
true in the model. -/

/-- Outcome of POST /api/users/create-basic. -/
inductive CreateBasicRes where
  | missingFields : CreateBasicRes
  | alreadyThere : UserDoc → CreateBasicRes
  | freshOne : UserDoc → CreateBasicRes
  | storeFailure : CreateBasicRes
deriving DecidableEq

/-- The document inserted by create-basic: handler sets
`email = email.toLowerCase().trim()` and both `nickname` and `name` to
`nickname.trim()`; the remaining schema fields take their defaults. -/
def freshBasicUser (storedEmail nickname : String) : UserDoc :=
  { name := jsTrim nickname
    nickname := jsTrim nickname
    email := storedEmail
    phone := ""
    addresses := []
    favoriteItems := []
    deliveryInstructions := "" }

/-- The POST /api/users/create-basic handler as a store transition:
400 when either field is falsy; `findOne` on the lowercased email
returns an existing user unchanged (200); otherwise the new document is
inserted (201).  The schema's `required` validator fails a save whose
email normalizes to the empty string (500). -/
def createBasicState (email nickname : String) (db : DB) : DB × CreateBasicRes :=
  if email == "" || nickname == "" then (db, .missingFields)
  else
    match findUserByEmail db (jsToLower email) with
    | some u => (db, .alreadyThere u)
    | none =>
      let stored := jsTrim (jsToLower email)
      if stored == "" then (db, .storeFailure)
      else ({ db with users := db.users ++ [freshBasicUser stored nickname] },
            .freshOne (freshBasicUser stored nickname))

/-- Outcome of POST /api/users/register. -/
inductive RegisterRes where
  | missingFields : RegisterRes
  | okUpdated : UserDoc → RegisterRes
  | okRegistered : UserDoc → RegisterRes
  | storeFailure : RegisterRes
deriving DecidableEq

/-- JavaScript `name.split(' ')[0]`: the prefix of the string before the
first space character. -/
def splitSpaceHead (s : String) : String :=
  match jsSplit s ' ' with
  | [] => ""
  | t :: _ => t

/-- The in-place update performed by register on an existing user:
overwrite `name` and `phone`, then backfill `nickname` from
`name.split(' ')[0]` only when it was falsy (empty). -/
def regUpdate (name phone : String) (u : UserDoc) : UserDoc :=
  let u₁ := { u with name := name, phone := phone }
  if u₁.nickname == "" then { u₁ with nickname := splitSpaceHead name } else u₁

/-- Replace the first user whose stored email equals the key, applying
`f` to it (the write-back of a fetched-and-mutated document). -/
def replaceFirstUser (l : List UserDoc) (key : String) (f : UserDoc → UserDoc) :
    List UserDoc :=
  match l with
  | [] => []
  | u :: rest => if u.email == key then f u :: rest else u :: replaceFirstUser rest key f

/-- The POST /api/users/register handler as a store transition. -/
def registerState (name email phone : String) (db : DB) : DB × RegisterRes :=
  if name == "" || email == "" || phone == "" then (db, .missingFields)
  else
    match findUserByEmail db (jsToLower email) with
    | some u =>
      ({ db with users := replaceFirstUser db.users (jsToLower email) (regUpdate name phone) },
       .okUpdated (regUpdate name phone u))
    | none =>
      let stored := jsTrim (jsToLower email)
      if stored == "" then (db, .storeFailure)
      else
        let u : UserDoc :=
          { name := name
            nickname := splitSpaceHead name
            email := stored
            phone := phone
            addresses := []
            favoriteItems := []
            deliveryInstructions := "" }
        ({ db with users := db.users ++ [u] }, .okRegistered u)

/-- Outcome of GET /api/users/:email (the handler lowercases the route
parameter before the lookup). -/
def getUserByParam (emailParam : String) (db : DB) : Option UserDoc :=
  findUserByEmail db (jsToLower emailParam)

/-- Outcome of PATCH /api/users/:email. -/
inductive PatchUserRes where
  | userMissing : PatchUserRes
  | okUser : UserDoc → PatchUserRes
deriving DecidableEq

/-- Assignment `user[key] = value` for the scalar schema paths; keys
outside the schema are dropped by the store (strict mode).  The
structured paths (`addresses`, `preferences`) are outside the scope of
the verified claims and behave like the scalar ones. -/
def setUserField (u : UserDoc) (k v : String) : UserDoc :=
  if k == "name" then { u with name := v }
  else if k == "nickname" then { u with nickname := v }
  else if k == "phone" then { u with phone := v }
  else u

/-- The PATCH body loop: `Object.keys(req.body).forEach`, skipping the
`email` key, assigning every other provided field in order. -/
def applyUserPatch (u : UserDoc) : List (String × String) → UserDoc
  | [] => u
  | (k, v) :: rest => applyUserPatch (if k == "email" then u else setUserField u k v) rest

/-- The PATCH /api/users/:email handler as a store transition. -/
def patchUserState (emailParam : String) (body : List (String × String)) (db : DB) :
    DB × PatchUserRes :=
  match findUserByEmail db (jsToLower emailParam) with
  | none => (db, .userMissing)
  | some u =>
    let users' := replaceFirstUser db.users (jsToLower emailParam) (fun w => applyUserPatch w body)
    ({ db with users := users' }, .okUser (applyUserPatch u body))

/-! ## Product handlers -/

/-- Outcome of POST /api/products. -/
inductive PostProductRes where
  | invalid : String → PostProductRes
  | created : ProductDoc → PostProductRes
deriving DecidableEq

/-- The check `!field || typeof field !== 'string' || field.trim() === ''`
applied to each of the three string fields of a product. -/
def badStrField (v : JsValue) : Bool :=
  !(truthy v) || (match v with | .str s => jsTrim s == "" | _ => true)

/-- `field.trim()` on a value already known to be a string. -/
def jsTrimStr : JsValue → String
  | .str s => jsTrim s
  | _ => ""

/-- The POST /api/products handler: field checks in source order (name,
description, price, category; the price check is
`!price || isNaN(parseFloat(price))`), then the document is built from
the trimmed strings, the parsed price and the uploaded file's path. -/
def postProduct (name description price category : JsValue)
    (file : Option String) : PostProductRes :=
  if badStrField name then .invalid "Product name is required"
  else if badStrField description then .invalid "Product description is required"
  else if !(truthy price) || parseFloat price == .nan then
    .invalid "Valid product price is required"
  else if badStrField category then .invalid "Product category is required"
  else .created
    { name := jsTrimStr name
      description := jsTrimStr description
      price := parseFloat price
      category := jsTrimStr category
      imageUrl := match file with | some f => "/uploads/" ++ f | none => "" }

/-- POST /api/products as a store transition. -/
def postProductState (name description price category : JsValue)
    (file : Option String) (pid : String) (now : ℕ) (db : DB) :
    DB × PostProductRes :=
  match postProduct name description price category file with
  | .invalid m => (db, .invalid m)
  | .created d => ({ db with products := db.products ++ [⟨pid, now, d⟩] }, .created d)

/-- `Product.findByIdAndDelete`: remove the first product with the given
id, if any. -/
def removeFirstProduct : List StoredProduct → String → List StoredProduct
  | [], _ => []
  | sp :: rest, pid =>
    if sp.pid == pid then rest else sp :: removeFirstProduct rest pid

/-- DELETE /api/products/:id as a store transition; the Bool reports
whether a document was deleted (404 otherwise). -/
def deleteProductState (pid : String) (db : DB) : DB × Bool :=
  match db.products.find? (fun sp => sp.pid == pid) with
  | none => (db, false)
  | some _ => ({ db with products := removeFirstProduct db.products pid }, true)

/-! ## Theorems -/

/-- The spec scenario request for POST /api/orders: total 10, payment
method cash, no subtotal and no deliveryFee supplied. -/
def c1Req : OrderReq :=
  { customer := some { name := .str "A", address := .str "X", phone := .str "1",
                       email := .str "a@b.com" }
    items := some [{ id := .str "1", name := .str "Burger",
                     price := .num (.fin 5), quantity := .num (.fin 2) }]
    subtotal := .undefined
    deliveryFee := .undefined
    deliveryLocation := none
    total := .num (.fin 10)
    paymentMethod := .str "cash"
    paymentReference := .undefined
    paymentStatus := .undefined
    orderReference := .undefined
    fulfilled := .undefined }

/-- The document the handler persists for the scenario request. -/
def c1Doc : OrderDoc :=
  { customer := { name := .str "A", address := .str "X", phone := .str "1",
                  email := .str "a@b.com" }
    items := [{ id := .str "1", name := .str "Burger",
                price := .num (.fin 5), quantity := .num (.fin 2) }]
    subtotal := .fin 10
    deliveryFee := .fin 0
    deliveryLocation := none
    total := .fin 10
    paymentMethod := .str "cash"
    paymentReference := .null
    paymentStatus := .str "pending"
    orderReference := .null
    fulfilled := false }

/-- C1 (amended): for every request the handler accepts, the persisted
subtotal is the request's subtotal parsed as a number, falling back to
the parsed total exactly when the parsed subtotal is NaN (absent or
non-numeric) **or zero** (JS falsiness); the persisted deliveryFee is
the parsed deliveryFee, defaulting to 0 exactly when that parse is NaN
(absent or non-numeric). -/
theorem c1_subtotal_deliveryFee (req : OrderReq) (d : OrderDoc)
    (h : postOrder req = .created d) :
    d.subtotal = (if parseFloat req.subtotal = .nan ∨ parseFloat req.subtotal = .fin 0
                  then parseFloat req.total else parseFloat req.subtotal)
    ∧ d.deliveryFee = (if parseFloat req.deliveryFee = .nan
                       then .fin 0 else parseFloat req.deliveryFee) := by
  cases hc : req.customer with
  | none => simp [postOrder, hc] at h
  | some c =>
    cases hi : req.items with
    | none => simp [postOrder, hc, hi] at h
    | some its =>
      simp only [postOrder, hc, hi] at h
      split at h
      · exact absurd h (by simp)
      · split at h
        · exact absurd h (by simp)
        · injection h with h'
          subst h'
          refine ⟨?_, ?_⟩
          · cases hs : parseFloat req.subtotal with
            | nan => simp [numOr, numTruthy, hs]
            | inf bneg => simp [numOr, numTruthy, hs]
            | fin q =>
              by_cases hq : q = 0
              · subst hq; simp [numOr, numTruthy, hs]
              · simp [numOr, numTruthy, hs, hq]
          · cases hs : parseFloat req.deliveryFee with
            | nan => simp [numOr, numTruthy, hs]
            | inf bneg => simp [numOr, numTruthy, hs]
            | fin q =>
              by_cases hq : q = 0
              · subst hq; simp [numOr, numTruthy, hs]
              · simp [numOr, numTruthy, hs, hq]

/-- C1 witness: the scenario request is accepted and the amended rule
evaluates to subtotal 10 and deliveryFee 0 on it. -/
theorem c1_witness :
    c1Doc.subtotal = (if parseFloat c1Req.subtotal = .nan ∨ parseFloat c1Req.subtotal = .fin 0
                      then parseFloat c1Req.total else parseFloat c1Req.subtotal)
    ∧ c1Doc.deliveryFee = (if parseFloat c1Req.deliveryFee = .nan
                           then .fin 0 else parseFloat c1Req.deliveryFee) :=
  c1_subtotal_deliveryFee c1Req c1Doc (by decide)

/-- C1 counterexample: a request whose subtotal is the number 0 — the
subtotal is present and numeric, it parses to 0, yet the persisted
subtotal is the total (10), not the parsed subtotal as the claim
states. -/
theorem c1_counterexample :
    postOrder { c1Req with subtotal := .num (.fin 0) } = .created c1Doc
    ∧ parseFloat (.num (.fin 0) : JsValue) = .fin 0
    ∧ c1Doc.subtotal ≠ parseFloat (.num (.fin 0) : JsValue) := by decide

/-- Forget the `fulfilled` flag of a stored order; used to state that a
transition preserves every part of every stored order except possibly
that flag. -/
def stripFulfilled (so : StoredOrder) : StoredOrder :=
  { so with doc := { so.doc with fulfilled := false } }

/-- Every document the order-creation handler accepts carries
`fulfilled = false`. -/
lemma postOrder_created_fulfilled (req : OrderReq) (d : OrderDoc)
    (h : postOrder req = .created d) : d.fulfilled = false := by
  cases hc : req.customer with
  | none => simp [postOrder, hc] at h
  | some c =>
    cases hi : req.items with
    | none => simp [postOrder, hc, hi] at h
    | some its =>
      simp only [postOrder, hc, hi] at h
      split at h
      · exact absurd h (by simp)
      · split at h
        · exact absurd h (by simp)
        · injection h with h'; subst h'; rfl

/-- A successful `findByIdAndUpdate` on `fulfilled` changes nothing in
the collection besides that flag. -/
lemma updateOrderList_map_strip :
    ∀ (l : List StoredOrder) (id : String) (b : Bool)
      (l' : List StoredOrder) (d : OrderDoc),
      updateOrderList l id b = some (l', d) →
      l'.map stripFulfilled = l.map stripFulfilled := by
  intro l
  induction l with
  | nil => intro id b l' d h; simp [updateOrderList] at h
  | cons so rest ih =>
    intro id b l' d h
    by_cases hso : (so.oid == id) = true
    · simp only [updateOrderList, if_pos hso, Option.some.injEq, Prod.mk.injEq] at h
      obtain ⟨h1, _⟩ := h
      subst h1
      rfl
    · simp only [updateOrderList, if_neg hso] at h
      cases hrec : updateOrderList rest id b with
      | none => rw [hrec] at h; exact absurd h (by simp)
      | some p =>
        obtain ⟨rest', d₀⟩ := p
        rw [hrec] at h
        simp only [Option.some.injEq, Prod.mk.injEq] at h
        obtain ⟨h1, _⟩ := h
        subst h1
        simp only [List.map_cons]
        rw [ih id b rest' d₀ hrec]

/-- C2: every order the create handler accepts is persisted with
`fulfilled = false` regardless of what the client sent, and PATCH
/api/orders/:id is the only handler that can change the `fulfilled`
flag of a stored order: the user and product handlers leave the orders
collection untouched, order creation preserves existing entries and
only adds entries with `fulfilled = false`, and even the PATCH handler
changes nothing besides `fulfilled`. -/
theorem c2_fulfilled_only_patch :
    (∀ req d, postOrder req = .created d → d.fulfilled = false)
    ∧ (∀ e n db, (createBasicState e n db).1.orders = db.orders)
    ∧ (∀ nm e p db, (registerState nm e p db).1.orders = db.orders)
    ∧ (∀ ep body db, (patchUserState ep body db).1.orders = db.orders)
    ∧ (∀ nm ds pr ct f pid now db,
        (postProductState nm ds pr ct f pid now db).1.orders = db.orders)
    ∧ (∀ pid db, (deleteProductState pid db).1.orders = db.orders)
    ∧ (∀ req oid now db so, so ∈ db.orders →
        so ∈ (postOrderState req oid now db).1.orders)
    ∧ (∀ req oid now db so, so ∈ (postOrderState req oid now db).1.orders →
        so ∈ db.orders ∨ so.doc.fulfilled = false)
    ∧ (∀ id fv db,
        ((patchOrderState id fv db).1.orders).map stripFulfilled
          = db.orders.map stripFulfilled) := by
  refine ⟨postOrder_created_fulfilled, ?_, ?_, ?_, ?_, ?_, ?_, ?_, ?_⟩
  · intro e n db
    unfold createBasicState
    split
    · rfl
    · cases findUserByEmail db (jsToLower e) with
      | some u => rfl
      | none => dsimp only; split <;> rfl
  · intro nm e p db
    unfold registerState
    split
    · rfl
    · cases findUserByEmail db (jsToLower e) with
      | some u => rfl
      | none => dsimp only; split <;> rfl
  · intro ep body db
    unfold patchUserState
    cases findUserByEmail db (jsToLower ep) <;> rfl
  · intro nm ds pr ct f pid now db
    unfold postProductState
    cases postProduct nm ds pr ct f <;> rfl
  · intro pid db
    unfold deleteProductState
    cases db.products.find? (fun sp => sp.pid == pid) <;> rfl
  · intro req oid now db so hso
    unfold postOrderState
    cases postOrder req with
    | badRequest m => exact hso
    | created d => exact List.mem_append_left _ hso
  · intro req oid now db so hso
    unfold postOrderState at hso
    cases hpo : postOrder req with
    | badRequest m => rw [hpo] at hso; exact Or.inl hso
    | created d =>
      rw [hpo] at hso
      rcases List.mem_append.mp hso with hl | hr
      · exact Or.inl hl
      · right
        have : so = ⟨oid, now, d⟩ := List.mem_singleton.mp hr
        rw [this]
        exact postOrder_created_fulfilled req d hpo
  · intro id fv db
    unfold patchOrderState
    split
    · rfl
    · cases castBool fv with
      | strip =>
        dsimp only
        cases db.orders.find? (fun so => so.oid == id) <;> rfl
      | okB b =>
        dsimp only
        cases hupd : updateOrderList db.orders id b with
        | none => rfl
        | some p =>
          obtain ⟨l, d⟩ := p
          exact updateOrderList_map_strip db.orders id b l d hupd
      | castFail => rfl

/-- A concrete order request whose client tries to set `fulfilled`. -/
def c2Req : OrderReq :=
  { customer := some { name := .str "B", address := .str "Y", phone := .str "2",
                       email := .str "c@d.com" }
    items := some [{ id := .str "2", name := .str "Suya",
                     price := .num (.fin 3), quantity := .num (.fin 1) }]
    subtotal := .num (.fin 3)
    deliveryFee := .num (.fin 1)
    deliveryLocation := none
    total := .num (.fin 4)
    paymentMethod := .str "card"
    paymentReference := .str "ref1"
    paymentStatus := .str "paid"
    orderReference := .str "ord1"
    fulfilled := .bool true }

/-- The document persisted for `c2Req`: `fulfilled` is false although
the client sent `fulfilled: true`. -/
def c2Doc : OrderDoc :=
  { customer := { name := .str "B", address := .str "Y", phone := .str "2",
                  email := .str "c@d.com" }
    items := [{ id := .str "2", name := .str "Suya",
                price := .num (.fin 3), quantity := .num (.fin 1) }]
    subtotal := .fin 3
    deliveryFee := .fin 1
    deliveryLocation := none
    total := .fin 4
    paymentMethod := .str "card"
    paymentReference := .str "ref1"
    paymentStatus := .str "paid"
    orderReference := .str "ord1"
    fulfilled := false }

/-- C2 witness: the handler accepts `c2Req` (which asked for
`fulfilled: true`) and the persisted document has `fulfilled = false`. -/
theorem c2_witness : c2Doc.fulfilled = false :=
  c2_fulfilled_only_patch.1 c2Req c2Doc (by decide)

/-- A valid email for the create-basic idempotence claim: non-empty and
free of surrounding whitespace, so that the store's trim setter leaves
the handler's lowercased key unchanged. -/
def validEmailStr (e : String) : Prop :=
  e ≠ "" ∧ jsTrim (jsToLower e) = jsToLower e ∧ jsToLower e ≠ ""

instance (e : String) : Decidable (validEmailStr e) := by
  unfold validEmailStr; infer_instance

/-- C3: calling create-basic twice with the same valid email is
idempotent — the first call inserts a document, the second call (even
with a different nickname) succeeds, returns that document unchanged,
and leaves the store exactly as the first call left it. -/
theorem c3_create_basic_idempotent (e n n' : String) (db : DB)
    (he : validEmailStr e) (hn : n ≠ "") (hn' : n' ≠ "")
    (habs : findUserByEmail db (jsToLower e) = none) :
    (createBasicState e n db).2 = .freshOne (freshBasicUser (jsToLower e) n)
    ∧ createBasicState e n' (createBasicState e n db).1
        = ((createBasicState e n db).1,
           .alreadyThere (freshBasicUser (jsToLower e) n)) := by
  obtain ⟨he1, he2, he3⟩ := he
  have h1 : createBasicState e n db
      = ({ db with users := db.users ++ [freshBasicUser (jsToLower e) n] },
         .freshOne (freshBasicUser (jsToLower e) n)) := by
    unfold createBasicState
    rw [if_neg (by simp [he1, hn])]
    rw [habs]
    dsimp only
    rw [he2, if_neg (by simp [he3])]
  have hfind₂ : findUserByEmail
      { db with users := db.users ++ [freshBasicUser (jsToLower e) n] }
      (jsToLower e) = some (freshBasicUser (jsToLower e) n) := by
    unfold findUserByEmail at habs ⊢
    simp [List.find?_append, habs, freshBasicUser]
  refine ⟨by rw [h1], ?_⟩
  rw [h1]
  unfold createBasicState
  rw [if_neg (by simp [he1, hn'])]
  rw [hfind₂]

/-- An empty store for the C3 witness. -/
def c3Db : DB := ⟨[], [], []⟩

/-- C3 witness: two create-basic calls with email "a@b.com" and
nicknames "Al" then "Bo" on an empty store. -/
theorem c3_witness :
    (createBasicState "a@b.com" "Al" c3Db).2
      = .freshOne (freshBasicUser (jsToLower "a@b.com") "Al")
    ∧ createBasicState "a@b.com" "Bo" (createBasicState "a@b.com" "Al" c3Db).1
        = ((createBasicState "a@b.com" "Al" c3Db).1,
           .alreadyThere (freshBasicUser (jsToLower "a@b.com") "Al")) :=
  c3_create_basic_idempotent "a@b.com" "Al" "Bo" c3Db (by decide) (by decide)
    (by decide) (by decide)

/-- Replace the users collection of a store (notation helper for frame
statements). -/
def setUsers (db : DB) (l : List UserDoc) : DB := { db with users := l }

/-- Stated from the claim's words: the first whitespace-delimited token
of a string (split at whitespace, first non-empty piece). -/
def firstWsToken (s : String) : String :=
  match (splitChars (fun c => c.isWhitespace) s.data).filter (fun t => !t.isEmpty) with
  | [] => ""
  | t :: _ => ⟨t⟩

/-- C4 (amended): a register call whose lowercased email matches an
existing user overwrites that user's `name` and `phone`, keeps
`nickname` whenever it was non-empty and otherwise backfills it with
the prefix of the supplied name before the first space character
(`name.split(' ')[0]` — not in general the first whitespace-delimited
token), leaves `email` unchanged, and returns success. -/
theorem c4_register_existing (name email phone : String) (db : DB) (u : UserDoc)
    (hn : name ≠ "") (he : email ≠ "") (hp : phone ≠ "")
    (hfind : findUserByEmail db (jsToLower email) = some u) :
    (registerState name email phone db).2 = .okUpdated (regUpdate name phone u)
    ∧ (regUpdate name phone u).name = name
    ∧ (regUpdate name phone u).phone = phone
    ∧ (regUpdate name phone u).nickname
        = (if u.nickname = "" then splitSpaceHead name else u.nickname)
    ∧ (regUpdate name phone u).email = u.email
    ∧ (registerState name email phone db).1
        = setUsers db (replaceFirstUser db.users (jsToLower email) (regUpdate name phone)) := by
  have hreg : registerState name email phone db
      = (setUsers db (replaceFirstUser db.users (jsToLower email) (regUpdate name phone)),
         .okUpdated (regUpdate name phone u)) := by
    unfold registerState
    rw [if_neg (by simp [hn, he, hp])]
    rw [hfind]
    rfl
  refine ⟨by rw [hreg], ?_, ?_, ?_, ?_, by rw [hreg]⟩
  · unfold regUpdate; dsimp only; split <;> rfl
  · unfold regUpdate; dsimp only; split <;> rfl
  · by_cases hnick : u.nickname = "" <;> simp [regUpdate, hnick]
  · unfold regUpdate; dsimp only; split <;> rfl

/-- The stored user hit by the C4 register calls: empty nickname. -/
def c4User : UserDoc :=
  { name := "Old", nickname := "", email := "a@b.com", phone := "1",
    addresses := [], favoriteItems := [], deliveryInstructions := "" }

/-- A store holding only `c4User`. -/
def c4Db : DB := ⟨[c4User], [], []⟩

/-- C4 witness: registering "John Doe" against the existing user with
empty nickname overwrites name and phone and backfills the nickname. -/
theorem c4_witness :
    (registerState "John Doe" "a@b.com" "5" c4Db).2
      = .okUpdated (regUpdate "John Doe" "5" c4User)
    ∧ (regUpdate "John Doe" "5" c4User).name = "John Doe"
    ∧ (regUpdate "John Doe" "5" c4User).phone = "5"
    ∧ (regUpdate "John Doe" "5" c4User).nickname
        = (if c4User.nickname = "" then splitSpaceHead "John Doe" else c4User.nickname)
    ∧ (regUpdate "John Doe" "5" c4User).email = c4User.email
    ∧ (registerState "John Doe" "a@b.com" "5" c4Db).1
        = setUsers c4Db (replaceFirstUser c4Db.users (jsToLower "a@b.com") (regUpdate "John Doe" "5")) :=
  c4_register_existing "John Doe" "a@b.com" "5" c4Db c4User (by decide) (by decide)
    (by decide) (by decide)

/-- The user document as stored after the counterexample register call. -/
def c4UserAfter : UserDoc :=
  { c4User with
    name := "John\tDoe"
    phone := "5"
    nickname := "John\tDoe" }

/-- C4 counterexample: with the supplied name "John\tDoe" (a tab, no
space) and a previously empty nickname, the stored nickname becomes the
whole string "John\tDoe", not the first whitespace-delimited token
"John" that the claim promises. -/
theorem c4_counterexample :
    (registerState "John\tDoe" "a@b.com" "5" c4Db).2 = .okUpdated c4UserAfter
    ∧ firstWsToken "John\tDoe" = "John"
    ∧ c4UserAfter.nickname ≠ firstWsToken "John\tDoe" := by decide

/-- C5: POST /api/orders answers 400 and leaves the store untouched for
every request whose items sequence is missing or empty, and for every
request whose customer (or its email) is absent, regardless of every
other field. -/
theorem c5_reject_empty_items_or_no_email (req : OrderReq) (oid : String)
    (now : ℕ) (db : DB)
    (h : req.items = none ∨ req.items = some [] ∨ req.customer = none
         ∨ (∃ c, req.customer = some c ∧ c.email = JsValue.undefined)) :
    (postOrderState req oid now db).1 = db
    ∧ ∃ m, (postOrderState req oid now db).2 = .badRequest m := by
  have hbad : ∃ m, postOrder req = .badRequest m := by
    rcases h with hi | hi | hc | ⟨c, hc, hce⟩
    · cases hcu : req.customer with
      | none => exact ⟨"Invalid order data", by simp [postOrder, hcu]⟩
      | some c => exact ⟨"Invalid order data", by simp [postOrder, hcu, hi]⟩
    · cases hcu : req.customer with
      | none => exact ⟨"Invalid order data", by simp [postOrder, hcu]⟩
      | some c => exact ⟨"Invalid order data", by simp [postOrder, hcu, hi]⟩
    · exact ⟨"Invalid order data", by simp [postOrder, hc]⟩
    · cases hit : req.items with
      | none => exact ⟨"Invalid order data", by simp [postOrder, hc, hit]⟩
      | some its =>
        cases its with
        | nil => exact ⟨"Invalid order data", by simp [postOrder, hc, hit]⟩
        | cons x xs =>
          refine ⟨"Customer email is required", ?_⟩
          simp [postOrder, hc, hit, hce, truthy]
  obtain ⟨m, hm⟩ := hbad
  unfold postOrderState
  rw [hm]
  exact ⟨rfl, m, rfl⟩

/-- A fully valid order request except for its empty items list. -/
def c5Req : OrderReq :=
  { customer := some { name := .str "E", address := .str "Z", phone := .str "3"
                       email := .str "e@f.com" }
    items := some []
    subtotal := .num (.fin 5)
    deliveryFee := .num (.fin 2)
    deliveryLocation := none
    total := .num (.fin 7)
    paymentMethod := .str "cash"
    paymentReference := .undefined
    paymentStatus := .undefined
    orderReference := .undefined
    fulfilled := .undefined }

/-- An empty store for the C5 witness. -/
def c5Db : DB := ⟨[], [], []⟩

/-- C5 witness: a request with an empty items list (all other fields
valid) is rejected and the store is unchanged. -/
theorem c5_witness :
    (postOrderState c5Req "a" 0 c5Db).1 = c5Db
    ∧ ∃ m, (postOrderState c5Req "a" 0 c5Db).2 = .badRequest m :=
  c5_reject_empty_items_or_no_email c5Req "a" 0 c5Db (Or.inr (Or.inl rfl))

/-- `findByIdAndUpdate` misses exactly when `find?` does. -/
lemma updateOrderList_eq_none (l : List StoredOrder) (id : String) (b : Bool) :
    updateOrderList l id b = none ↔ l.find? (fun so => so.oid == id) = none := by
  induction l with
  | nil => simp [updateOrderList]
  | cons so rest ih =>
    cases hso : so.oid == id with
    | true => simp [updateOrderList, List.find?, hso]
    | false =>
      simp only [updateOrderList, List.find?, hso]
      cases hrec : updateOrderList rest id b with
      | none => simpa [hrec] using ih
      | some p =>
        obtain ⟨r, d⟩ := p
        rw [hrec] at ih
        simp only [ih.symm.not] at hrec ⊢
        simpa using ih.not

/-- When `find?` hits a stored order, `findByIdAndUpdate` updates
exactly that entry: it returns the document with only `fulfilled`
changed, preserves everything else in the collection, keeps every other
entry, and applying the same update again is a fixed point. -/
lemma updateOrderList_found (l : List StoredOrder) (id : String) (b : Bool)
    (so : StoredOrder) (h : l.find? (fun x => x.oid == id) = some so) :
    ∃ l', updateOrderList l id b = some (l', { so.doc with fulfilled := b })
      ∧ l'.map stripFulfilled = l.map stripFulfilled
      ∧ (∀ x ∈ l, (x.oid == id) = false → x ∈ l')
      ∧ updateOrderList l' id b = some (l', { so.doc with fulfilled := b }) := by
  induction l with
  | nil => simp at h
  | cons y rest ih =>
    cases hy : y.oid == id with
    | true =>
      rw [List.find?] at h
      rw [hy] at h
      injection h with h'
      subst h'
      refine ⟨{ y with doc := { y.doc with fulfilled := b } } :: rest, ?_, ?_, ?_, ?_⟩
      · simp [updateOrderList, hy]
      · rfl
      · intro x hx hxid
        rcases List.mem_cons.mp hx with rfl | hx
        · rw [hxid] at hy; exact absurd hy (by simp)
        · exact List.mem_cons_of_mem _ hx
      · simp [updateOrderList, hy]
    | false =>
      rw [List.find?] at h
      rw [hy] at h
      obtain ⟨l', h1, h2, h3, h4⟩ := ih h
      refine ⟨y :: l', ?_, ?_, ?_, ?_⟩
      · simp [updateOrderList, hy, h1]
      · simp only [List.map_cons, h2]
      · intro x hx hxid
        rcases List.mem_cons.mp hx with rfl | hx
        · exact List.mem_cons_self _ _
        · exact List.mem_cons_of_mem _ (h3 x hx hxid)
      · simp [updateOrderList, hy, h4]

/-- C6: PATCH /api/orders/:id with a boolean body answers 400 exactly
when the id is not a well-formed identifier, 404 exactly when the id is
well-formed but matches no stored order, and otherwise sets exactly the
`fulfilled` field of the matched order to the supplied boolean, changes
nothing else in the store, returns the updated document, and is
idempotent. -/
theorem c6_patch_order_status (id : String) (b : Bool) (db : DB) :
    ((patchOrderState id (.bool b) db).2 = .invalidId ↔ isValidObjectId id = false)
    ∧ ((patchOrderState id (.bool b) db).2 = .orderMissing
        ↔ (isValidObjectId id = true ∧ lookupOrder db id = none))
    ∧ (∀ d, isValidObjectId id = true → lookupOrder db id = some d →
        (patchOrderState id (.bool b) db).2 = .okOrder { d with fulfilled := b }
        ∧ (patchOrderState id (.bool b) db).1.users = db.users
        ∧ (patchOrderState id (.bool b) db).1.products = db.products
        ∧ ((patchOrderState id (.bool b) db).1.orders).map stripFulfilled
            = db.orders.map stripFulfilled
        ∧ (∀ so ∈ db.orders, (so.oid == id) = false →
            so ∈ (patchOrderState id (.bool b) db).1.orders)
        ∧ patchOrderState id (.bool b) ((patchOrderState id (.bool b) db).1)
            = ((patchOrderState id (.bool b) db).1,
               .okOrder { d with fulfilled := b })) := by
  by_cases hv : isValidObjectId id = true
  · have hv' : ¬ isValidObjectId id = false := by simp [hv]
    cases hfind : db.orders.find? (fun so => so.oid == id) with
    | none =>
      have hupd : updateOrderList db.orders id b = none :=
        (updateOrderList_eq_none db.orders id b).mpr hfind
      have hp : patchOrderState id (.bool b) db = (db, .orderMissing) := by
        unfold patchOrderState
        rw [if_neg hv']
        show (match updateOrderList db.orders id b with
              | none => (db, PatchOrderRes.orderMissing)
              | some (l, d) => ({ db with orders := l }, .okOrder d)) = _
        rw [hupd]
      have hlook : lookupOrder db id = none := by
        unfold lookupOrder; rw [hfind]; rfl
      refine ⟨by simp [hp, hv], by simp [hp, hv, hlook], ?_⟩
      intro d _ hl
      rw [hlook] at hl
      exact absurd hl (by simp)
    | some so =>
      obtain ⟨l', h1, h2, h3, h4⟩ := updateOrderList_found db.orders id b so hfind
      have hp : patchOrderState id (.bool b) db
          = ({ db with orders := l' }, .okOrder { so.doc with fulfilled := b }) := by
        unfold patchOrderState
        rw [if_neg hv']
        show (match updateOrderList db.orders id b with
              | none => (db, PatchOrderRes.orderMissing)
              | some (l, d) => ({ db with orders := l }, .okOrder d)) = _
        rw [h1]
      have hlook : lookupOrder db id = some so.doc := by
        unfold lookupOrder; rw [hfind]; rfl
      refine ⟨by simp [hp, hv], by simp [hp, hv, hlook], ?_⟩
      intro d _ hl
      rw [hlook] at hl
      injection hl with hd
      subst hd
      refine ⟨by rw [hp], by rw [hp], by rw [hp], by rw [hp]; exact h2, ?_, ?_⟩
      · intro x hx hxid
        rw [hp]
        exact h3 x hx hxid
      · rw [hp]
        unfold patchOrderState
        rw [if_neg hv']
        show (match updateOrderList l' id b with
              | none => ({ db with orders := l' }, PatchOrderRes.orderMissing)
              | some (l, d) => ({ { db with orders := l' } with orders := l },
                                .okOrder d)) = _
        rw [h4]
  · have hvf : isValidObjectId id = false := by
      cases hb : isValidObjectId id
      · rfl
      · exact absurd hb hv
    have hp : patchOrderState id (.bool b) db = (db, .invalidId) := by
      unfold patchOrderState
      rw [if_pos hvf]
    refine ⟨by simp [hp, hvf], by simp [hp, hvf], ?_⟩
    intro d hvt _
    exact absurd hvt hv

/-- A well-formed id and a one-order store for the C6 witness. -/
def c6Id : String := "aaaaaaaaaaaaaaaaaaaaaaaa"

/-- The stored order the C6 witness patches. -/
def c6Doc : OrderDoc :=
  { customer := { name := .str "W", address := .str "V", phone := .str "9"
                  email := .str "w@v.com" }
    items := [{ id := .str "7", name := .str "Rice",
                price := .num (.fin 2), quantity := .num (.fin 1) }]
    subtotal := .fin 2
    deliveryFee := .fin 0
    deliveryLocation := none
    total := .fin 2
    paymentMethod := .str "cash"
    paymentReference := .null
    paymentStatus := .str "pending"
    orderReference := .null
    fulfilled := false }

/-- The C6 witness store: one unfulfilled order under `c6Id`. -/
def c6Db : DB := ⟨[], [], [⟨c6Id, 5, c6Doc⟩]⟩

/-- C6 witness: patching the stored order with `{fulfilled: true}`
returns 200 with the updated document. -/
theorem c6_witness :
    (patchOrderState c6Id (.bool true) c6Db).2
      = .okOrder { c6Doc with fulfilled := true } :=
  ((c6_patch_order_status c6Id true c6Db).2.2 c6Doc (by decide) (by decide)).1

/-- Stated from the claim's words: a product string field is valid when
it is a string that is non-empty after trimming. -/
def strFieldValid (v : JsValue) : Prop := ∃ s, v = JsValue.str s ∧ jsTrim s ≠ ""

/-- The handler's string-field rejection test agrees with the negation
of the claim's validity notion. -/
lemma badStrField_iff (v : JsValue) : badStrField v = true ↔ ¬ strFieldValid v := by
  cases v with
  | str s =>
    by_cases hs : s = ""
    · subst hs
      have h0 : jsTrim "" = "" := by decide
      simp [badStrField, truthy, strFieldValid, h0]
    · simp [badStrField, truthy, strFieldValid, hs]
  | undefined => simp [badStrField, strFieldValid]
  | null => simp [badStrField, strFieldValid]
  | bool b => simp [badStrField, strFieldValid]
  | num n => simp [badStrField, strFieldValid]

lemma badStrField_eq_false (v : JsValue) :
    badStrField v = false ↔ strFieldValid v := by
  rw [← not_iff_not, ← badStrField_iff]
  cases badStrField v <;> simp

instance (v : JsValue) : Decidable (strFieldValid v) :=
  decidable_of_iff _ (badStrField_eq_false v)

/-- From the claim: the persisted product is built from the trimmed
strings, the parsed price and the uploaded file's public path. -/
def claimedProductDoc (name description price category : JsValue)
    (file : Option String) : ProductDoc :=
  { name := jsTrimStr name
    description := jsTrimStr description
    price := parseFloat price
    category := jsTrimStr category
    imageUrl := match file with | some f => "/uploads/" ++ f | none => "" }

/-- C7 (amended): POST /api/products resolves exactly as the claim's
cascade, first failing field winning in the order name, description,
price, category — except that the price is rejected when it is falsy
(absent, numeric 0, or empty string) or parses to NaN, rather than
"when it does not parse as a finite number"; when all checks pass it
persists the trimmed strings and the parsed price, returning 201. -/
theorem c7_product_validation (name description price category : JsValue)
    (file : Option String) :
    postProduct name description price category file =
      (if ¬ strFieldValid name then .invalid "Product name is required"
       else if ¬ strFieldValid description then .invalid "Product description is required"
       else if truthy price = false ∨ parseFloat price = .nan then
         .invalid "Valid product price is required"
       else if ¬ strFieldValid category then .invalid "Product category is required"
       else .created (claimedProductDoc name description price category file)) := by
  by_cases hvn : strFieldValid name
  · have hn : badStrField name = false := (badStrField_eq_false name).mpr hvn
    by_cases hvd : strFieldValid description
    · have hd : badStrField description = false := (badStrField_eq_false description).mpr hvd
      by_cases hp : truthy price = false ∨ parseFloat price = .nan
      · have hpb : (!truthy price || parseFloat price == JsNum.nan) = true := by
          rcases hp with h | h
          · simp [h]
          · simp [h]
        simp [postProduct, hn, hd, hpb, hvn, hvd, hp]
      · have hpt : truthy price = true := by
          rcases ht : truthy price with _ | _
          · exact absurd (Or.inl ht) hp
          · rfl
        have hpn : ¬ parseFloat price = JsNum.nan := fun hx => hp (Or.inr hx)
        have hpb : (!truthy price || parseFloat price == JsNum.nan) = false := by
          simp [hpt, hpn]
        by_cases hvc : strFieldValid category
        · have hc : badStrField category = false := (badStrField_eq_false category).mpr hvc
          simp [postProduct, claimedProductDoc, hn, hd, hpb, hc, hvn, hvd, hp, hvc]
        · have hc : badStrField category = true := (badStrField_iff category).mpr hvc
          simp [postProduct, hn, hd, hpb, hc, hvn, hvd, hp, hvc]
    · have hd : badStrField description = true := (badStrField_iff description).mpr hvd
      simp [postProduct, hn, hd, hvn, hvd]
  · have hn : badStrField name = true := (badStrField_iff name).mpr hvn
    simp [postProduct, hn, hvn]

/-- C7 counterexample: name, description and category are valid strings
and the numeric price 0 parses as the finite number 0, so the claim as
stated requires a 201; the handler answers 400 for the price field. -/
theorem c7_counterexample :
    postProduct (.str "Burger") (.str "Tasty") (.num (.fin 0)) (.str "Food") none
      = .invalid "Valid product price is required"
    ∧ strFieldValid (.str "Burger")
    ∧ strFieldValid (.str "Tasty")
    ∧ strFieldValid (.str "Food")
    ∧ parseFloat (.num (.fin 0)) = .fin 0 :=
  ⟨by decide, ⟨"Burger", rfl, by decide⟩, ⟨"Tasty", rfl, by decide⟩,
   ⟨"Food", rfl, by decide⟩, by decide⟩

/-- The value of the last occurrence of a key in a request body (later
assignments of the forEach loop overwrite earlier ones). -/
def lastVal : List (String × String) → String → Option String
  | [], _ => none
  | (k, v) :: rest, key =>
    match lastVal rest key with
    | some w => some w
    | none => if k == key then some v else none

/-- Field-wise effect of one `user[key] = value` assignment. -/
lemma setUserField_eq (u : UserDoc) (k v : String) :
    (setUserField u k v).name = (if k = "name" then v else u.name)
    ∧ (setUserField u k v).nickname = (if k = "nickname" then v else u.nickname)
    ∧ (setUserField u k v).phone = (if k = "phone" then v else u.phone)
    ∧ (setUserField u k v).email = u.email
    ∧ (setUserField u k v).addresses = u.addresses
    ∧ (setUserField u k v).favoriteItems = u.favoriteItems
    ∧ (setUserField u k v).deliveryInstructions = u.deliveryInstructions := by
  by_cases h1 : k = "name"
  · subst h1; simp [setUserField]
  · by_cases h2 : k = "nickname"
    · subst h2; simp [setUserField]
    · by_cases h3 : k = "phone"
      · subst h3; simp [setUserField]
      · simp [setUserField, h1, h2, h3]

/-- Field-wise effect of the whole PATCH body loop: each scalar field
takes the last value supplied under its key (or keeps its old value),
`email` and the remaining fields are never changed. -/
lemma applyUserPatch_fields (body : List (String × String)) (u : UserDoc) :
    (applyUserPatch u body).name = (lastVal body "name").getD u.name
    ∧ (applyUserPatch u body).nickname = (lastVal body "nickname").getD u.nickname
    ∧ (applyUserPatch u body).phone = (lastVal body "phone").getD u.phone
    ∧ (applyUserPatch u body).email = u.email
    ∧ (applyUserPatch u body).addresses = u.addresses
    ∧ (applyUserPatch u body).favoriteItems = u.favoriteItems
    ∧ (applyUserPatch u body).deliveryInstructions = u.deliveryInstructions := by
  induction body generalizing u with
  | nil => simp [applyUserPatch, lastVal]
  | cons kv rest ih =>
    obtain ⟨k, v⟩ := kv
    have happ : applyUserPatch u ((k, v) :: rest)
        = applyUserPatch (if k == "email" then u else setUserField u k v) rest := rfl
    obtain ⟨i1, i2, i3, i4, i5, i6, i7⟩ :=
      ih (if k == "email" then u else setUserField u k v)
    obtain ⟨s1, s2, s3, s4, s5, s6, s7⟩ := setUserField_eq u k v
    by_cases hke : k = "email"
    · have hu : (if k == "email" then u else setUserField u k v) = u := by simp [hke]
      rw [hu] at i1 i2 i3 i4 i5 i6 i7
      refine ⟨?_, ?_, ?_, ?_, ?_, ?_, ?_⟩ <;> rw [happ, hu]
      · obtain ⟨j1, _⟩ := ih u
        rw [j1]
        cases hlv : lastVal rest "name" <;> simp [lastVal, hlv, hke]
      · obtain ⟨_, j2, _⟩ := ih u
        rw [j2]
        cases hlv : lastVal rest "nickname" <;> simp [lastVal, hlv, hke]
      · obtain ⟨_, _, j3, _⟩ := ih u
        rw [j3]
        cases hlv : lastVal rest "phone" <;> simp [lastVal, hlv, hke]
      · exact i4
      · exact i5
      · exact i6
      · exact i7
    · have hu : (if k == "email" then u else setUserField u k v) = setUserField u k v := by
        simp [hke]
      rw [hu] at i1 i2 i3 i4 i5 i6 i7
      refine ⟨?_, ?_, ?_, ?_, ?_, ?_, ?_⟩ <;> rw [happ, hu]
      · rw [i1, s1]
        cases hlv : lastVal rest "name" <;>
          by_cases hk : k = "name" <;> simp [lastVal, hlv, hk]
      · rw [i2, s2]
        cases hlv : lastVal rest "nickname" <;>
          by_cases hk : k = "nickname" <;> simp [lastVal, hlv, hk]
      · rw [i3, s3]
        cases hlv : lastVal rest "phone" <;>
          by_cases hk : k = "phone" <;> simp [lastVal, hlv, hk]
      · rw [i4, s4]
      · rw [i5, s5]
      · rw [i6, s6]
      · rw [i7, s7]

/-- C8: PATCH /api/users/:email on a missing user answers 404 and
changes nothing; on an existing user it overwrites exactly the provided
scalar fields (last occurrence winning), ignores any attempt to change
`email`, leaves every unlisted field at its previous value, and stores
the merged record in place. -/
theorem c8_patch_user (ep : String) (body : List (String × String)) (db : DB) :
    (findUserByEmail db (jsToLower ep) = none →
      patchUserState ep body db = (db, .userMissing))
    ∧ (∀ u, findUserByEmail db (jsToLower ep) = some u →
        (patchUserState ep body db).2 = .okUser (applyUserPatch u body)
        ∧ (applyUserPatch u body).email = u.email
        ∧ (applyUserPatch u body).name = (lastVal body "name").getD u.name
        ∧ (applyUserPatch u body).nickname = (lastVal body "nickname").getD u.nickname
        ∧ (applyUserPatch u body).phone = (lastVal body "phone").getD u.phone
        ∧ (applyUserPatch u body).addresses = u.addresses
        ∧ (applyUserPatch u body).favoriteItems = u.favoriteItems
        ∧ (applyUserPatch u body).deliveryInstructions = u.deliveryInstructions
        ∧ (patchUserState ep body db).1
            = setUsers db (replaceFirstUser db.users (jsToLower ep)
                (fun w => applyUserPatch w body))) := by
  constructor
  · intro hnone
    unfold patchUserState
    rw [hnone]
  · intro u hsome
    obtain ⟨f1, f2, f3, f4, f5, f6, f7⟩ := applyUserPatch_fields body u
    have hp : patchUserState ep body db
        = (setUsers db (replaceFirstUser db.users (jsToLower ep)
            (fun w => applyUserPatch w body)),
           .okUser (applyUserPatch u body)) := by
      unfold patchUserState
      rw [hsome]
      rfl
    exact ⟨by rw [hp], f4, f1, f2, f3, f5, f6, f7, by rw [hp]⟩

/-- The stored user for the C8 witness. -/
def c8User : UserDoc :=
  { name := "Ada", nickname := "Ad", email := "g@h.com", phone := "7",
    addresses := [], favoriteItems := ["jollof"], deliveryInstructions := "ring" }

/-- A store holding only `c8User`. -/
def c8Db : DB := ⟨[c8User], [], []⟩

/-- C8 witness: a PATCH body that renames the user, changes the phone
and tries to change the email; the email attempt is ignored and the
other fields are overwritten. -/
theorem c8_witness :
    (patchUserState "g@h.com" [("name", "Eve"), ("email", "x@y.com"), ("phone", "8")]
        c8Db).2
      = .okUser (applyUserPatch c8User
          [("name", "Eve"), ("email", "x@y.com"), ("phone", "8")])
    ∧ (applyUserPatch c8User
        [("name", "Eve"), ("email", "x@y.com"), ("phone", "8")]).email
      = c8User.email :=
  ⟨((c8_patch_user "g@h.com" [("name", "Eve"), ("email", "x@y.com"), ("phone", "8")]
      c8Db).2 c8User (by decide)).1,
   ((c8_patch_user "g@h.com" [("name", "Eve"), ("email", "x@y.com"), ("phone", "8")]
      c8Db).2 c8User (by decide)).2.1⟩

/-- The descending-`createdAt` ordering of the order listings. -/
def newestFirst (a b : StoredOrder) : Prop := b.createdAt ≤ a.createdAt

lemma insertByNewest_perm (x : StoredOrder) (l : List StoredOrder) :
    (insertByNewest x l).Perm (x :: l) := by
  induction l with
  | nil => exact List.Perm.refl _
  | cons y ys ih =>
    unfold insertByNewest
    split
    · exact List.Perm.refl _
    · exact (ih.cons y).trans (List.Perm.swap x y ys)

lemma sortByNewest_perm (l : List StoredOrder) : (sortByNewest l).Perm l := by
  induction l with
  | nil => exact List.Perm.refl _
  | cons x xs ih => exact (insertByNewest_perm x (sortByNewest xs)).trans (ih.cons x)

lemma pairwise_insertByNewest (x : StoredOrder) (l : List StoredOrder)
    (h : l.Pairwise newestFirst) :
    (insertByNewest x l).Pairwise newestFirst := by
  induction l with
  | nil => simp [insertByNewest, List.pairwise_cons]
  | cons y ys ih =>
    rcases List.pairwise_cons.mp h with ⟨hy, hys⟩
    unfold insertByNewest
    split
    case isTrue hlt =>
      refine List.pairwise_cons.mpr ⟨?_, h⟩
      intro z hz
      rcases List.mem_cons.mp hz with rfl | hz
      · exact le_of_lt hlt
      · exact le_trans (hy z hz) (le_of_lt hlt)
    case isFalse hge =>
      refine List.pairwise_cons.mpr ⟨?_, ih hys⟩
      intro z hz
      have hz' := (insertByNewest_perm x ys).mem_iff.mp hz
      rcases List.mem_cons.mp hz' with rfl | hz'
      · exact Nat.le_of_not_lt hge
      · exact hy z hz'

lemma pairwise_sortByNewest (l : List StoredOrder) :
    (sortByNewest l).Pairwise newestFirst := by
  induction l with
  | nil => exact List.Pairwise.nil
  | cons x xs ih => exact pairwise_insertByNewest x _ ih

/-- C9: GET /api/orders with a non-empty email query returns exactly
the stored orders whose `customer.email` is string-equal to the query
(no lowercasing of either side — the filter compares the raw values),
without it returns all orders; both listings are ordered newest
`createdAt` first.  User lookups, by contrast, lowercase the route
parameter before matching. -/
theorem c9_order_listing :
    (∀ e db, e ≠ "" →
      (getOrders (some e) db).Perm
        (db.orders.filter (fun so => so.doc.customer.email == JsValue.str e))
      ∧ (getOrders (some e) db).Pairwise newestFirst)
    ∧ (∀ db, (getOrders none db).Perm db.orders
        ∧ (getOrders none db).Pairwise newestFirst)
    ∧ (∀ ep db, getUserByParam ep db = findUserByEmail db (jsToLower ep)) := by
  refine ⟨?_, ?_, ?_⟩
  · intro e db he
    have hthis : getOrders (some e) db
        = sortByNewest (db.orders.filter
            (fun so => so.doc.customer.email == JsValue.str e)) := by
      unfold getOrders
      dsimp only
      rw [if_neg (by simp [he])]
    rw [hthis]
    exact ⟨sortByNewest_perm _, pairwise_sortByNewest _⟩
  · intro db
    exact ⟨sortByNewest_perm _, pairwise_sortByNewest _⟩
  · intro ep db
    rfl

/-- A stored order carrying a given customer email. -/
def c9Doc (e : String) : OrderDoc :=
  { customer := { name := .str "N", address := .str "A", phone := .str "P"
                  email := .str e }
    items := [{ id := .str "1", name := .str "Rice",
                price := .num (.fin 1), quantity := .num (.fin 1) }]
    subtotal := .fin 1
    deliveryFee := .fin 0
    deliveryLocation := none
    total := .fin 1
    paymentMethod := .str "cash"
    paymentReference := .null
    paymentStatus := .str "pending"
    orderReference := .null
    fulfilled := false }

/-- A store with two orders whose emails differ only in case. -/
def c9Db : DB :=
  ⟨[], [], [⟨"b1", 1, c9Doc "a@b.com"⟩, ⟨"b2", 2, c9Doc "A@B.com"⟩]⟩

/-- C9 witness: filtering `c9Db` by "a@b.com" matches only the order
with the exactly equal email (the upper-case one is excluded), sorted
newest-first. -/
theorem c9_witness :
    (getOrders (some "a@b.com") c9Db).Perm
      (c9Db.orders.filter (fun so => so.doc.customer.email == JsValue.str "a@b.com"))
    ∧ (getOrders (some "a@b.com") c9Db).Pairwise newestFirst :=
  c9_order_listing.1 "a@b.com" c9Db (by decide)

/-- C10: POST /api/products rejects the numeric price 0 with the
field-specific 400 message because `!price` treats 0 as missing even
though 0 parses as a finite number, while the very same price supplied
as the string "0" passes validation and is stored as 0. -/
theorem c10_zero_price_representation :
    postProduct (.str "Burger") (.str "Tasty beef burger") (.num (.fin 0))
        (.str "Food") none = .invalid "Valid product price is required"
    ∧ postProduct (.str "Burger") (.str "Tasty beef burger") (.str "0")
        (.str "Food") none
      = .created { name := "Burger", description := "Tasty beef burger",
                   price := .fin 0, category := "Food", imageUrl := "" }
    ∧ parseFloat (.num (.fin 0)) = .fin 0
    ∧ parseFloat (.num (.fin 0)) ≠ .nan := by decide

end Obig
